import Mathlib

/-!
Formal model of the Amarktai Network order admission pipeline: the four-gate
guard (idempotency, fee coverage, trade limiter, circuit breaker), the burst
counters, the circuit-breaker latch, fill reconciliation, and the
environment-driven limit configuration.

The repository ships the test suites for `services/order_pipeline.py`, but the
module itself is not among the sources; the definitions below are therefore
modelled from the specification (and pinned to the concrete behaviour the
tests fix), with money-like quantities embedded as rationals.
-/

namespace Amarktai

/-- Substring containment: `w` occurs somewhere inside `s`. -/
def strContains (s w : String) : Prop := ∃ a b : String, s = a ++ w ++ b

/-- Outcome of a single admission gate: a pass flag and a human-readable
reason (required when failed). -/
structure GateResult where
  passed : Bool
  reason : String
  deriving DecidableEq

/-- Numeric evidence attached to the fee-coverage gate result. -/
structure FeeCoverageDetails where
  fee_bps : ℚ
  spread_bps : ℚ
  slippage_bps : ℚ
  safety_margin_bps : ℚ
  total_cost_bps : ℚ
  profit_margin_bps : ℚ
  edge_bps : ℚ
  deriving DecidableEq

/-- Modelled from the spec: the fee-coverage gate of `services/order_pipeline.py`
(the module is absent from the sources; only its tests are present).
`total_cost_bps = fee_bps + spread_bps + slippage_bps + safety_margin_bps`;
the gate passes iff `edge_bps ≥ total_cost_bps`; on failure the reason states
"Insufficient edge"; the four cost components, the total and the profit margin
`edge − total` are all exposed in the details. -/
def gate_fee_coverage (edge_bps fee_bps spread_bps slippage_bps safety_margin_bps : ℚ) :
    GateResult × FeeCoverageDetails :=
  let total := fee_bps + spread_bps + slippage_bps + safety_margin_bps
  let d : FeeCoverageDetails :=
    ⟨fee_bps, spread_bps, slippage_bps, safety_margin_bps, total, edge_bps - total, edge_bps⟩
  if total ≤ edge_bps then (⟨true, ""⟩, d) else (⟨false, "Insufficient edge"⟩, d)

/-- Modelled from the spec: drop burst-counter entries older than the sliding
window (a timestamp `t` is stale when `now − t` exceeds the window). -/
def prune_burst (window now : ℚ) (ts : List ℚ) : List ℚ :=
  ts.filter (fun t => decide (now - t ≤ window))

/-- Modelled from the spec and the tests: the burst check prunes stale entries
first (on failing checks too), then compares the remaining count to the limit;
at/over the limit it fails. Per `test_trade_limiter_cleans_old_burst_timestamps`
the check itself leaves the counter as the pruned list on either outcome (the
post-check counter for an all-stale input is empty), so the new timestamp is
not appended here. Returns (passed, counted entries, post-check counter). -/
def check_burst (limit : ℕ) (window now : ℚ) (counter : List ℚ) :
    Bool × ℕ × List ℚ :=
  let pruned := prune_burst window now counter
  (decide (pruned.length < limit), pruned.length, pruned)

/-- Outcome of the trade-limiter gate, together with the post-check burst
counter for the order's `(exchange, user)` key. -/
structure TradeLimiterResult where
  passed : Bool
  reason : String
  counter : List ℚ
  deriving DecidableEq

/-- Modelled from the spec: Gate C runs three checks in order — bot daily,
user daily, burst — and the first failure wins, with reason formats
`"Bot daily limit: {count}/{limit}"`, `"User daily limit: {count}/{limit}"`
and `"Burst limit: {count}/{limit}"`. Daily counts come from the ledger. -/
def gate_trade_limiter (bot_limit user_limit burst_limit : ℕ) (window : ℚ)
    (bot_count user_count : ℕ) (counter : List ℚ) (now : ℚ) : TradeLimiterResult :=
  if bot_limit ≤ bot_count then
    ⟨false, "Bot daily limit: " ++ toString bot_count ++ "/" ++ toString bot_limit, counter⟩
  else if user_limit ≤ user_count then
    ⟨false, "User daily limit: " ++ toString user_count ++ "/" ++ toString user_limit, counter⟩
  else
    let r := check_burst burst_limit window now counter
    if r.1 then ⟨true, "", r.2.2⟩
    else ⟨false, "Burst limit: " ++ toString r.2.1 ++ "/" ++ toString burst_limit, r.2.2⟩

/-- Circuit-breaker thresholds. -/
structure BreakerConfig where
  max_drawdown_percent : ℚ
  max_daily_loss_percent : ℚ
  max_consecutive_losses : ℕ
  max_errors_per_hour : ℚ
  deriving DecidableEq

/-- Spec defaults: drawdown 20%, daily loss 10%, 5 consecutive losses,
10 errors per hour. -/
def defaultBreakerConfig : BreakerConfig := ⟨1/5, 1/10, 5, 10⟩

/-- Ledger-derived per-bot risk metrics the circuit breaker evaluates. -/
structure BreakerInputs where
  drawdown : ℚ
  daily_pnl_percent : ℚ
  consecutive_losses : ℕ
  error_rate : ℚ
  deriving DecidableEq

/-- Result of `CircuitBreaker.check_status`. -/
structure CheckStatusResult where
  should_trip : Bool
  reason : String
  deriving DecidableEq

/-- Modelled from the spec: `CircuitBreaker.check_status` evaluates the four
trip conditions in the order drawdown, daily loss, consecutive losses, error
storm, and returns the first true condition's reason; no trip when every
metric is below its threshold. -/
def check_status (cfg : BreakerConfig) (inp : BreakerInputs) : CheckStatusResult :=
  if cfg.max_drawdown_percent ≤ inp.drawdown then
    ⟨true, "drawdown limit exceeded"⟩
  else if inp.daily_pnl_percent ≤ -cfg.max_daily_loss_percent then
    ⟨true, "daily loss limit exceeded"⟩
  else if cfg.max_consecutive_losses ≤ inp.consecutive_losses then
    ⟨true, "consecutive losses limit exceeded"⟩
  else if cfg.max_errors_per_hour ≤ inp.error_rate then
    ⟨true, "error rate limit exceeded"⟩
  else
    ⟨false, ""⟩

/-- Persisted circuit-breaker latch state for one bot key. -/
structure CircuitBreakerState where
  tripped : Bool
  reason : String
  trigger_type : String
  deriving DecidableEq

/-- A key starts clear. -/
def cb_initial : CircuitBreakerState := ⟨false, "", ""⟩

/-- Modelled from the spec: `trip(bot_id, reason, trigger_type)` persists the
state as tripped with the given reason and trigger type. -/
def trip (r t : String) (_st : CircuitBreakerState) : CircuitBreakerState := ⟨true, r, t⟩

/-- Modelled from the spec: `reset(bot_id)` explicitly clears the tripped
state; this is the only transition out of tripped. -/
def reset (_st : CircuitBreakerState) : CircuitBreakerState := ⟨false, "", ""⟩

/-- Modelled from the spec: `get_status(bot_id)` reads the tripped flag. -/
def get_status (st : CircuitBreakerState) : Bool := st.tripped

/-- History of operations applied to one bot's breaker state: an explicit
trip, an explicit reset, or a later passing check (which must not clear). -/
inductive BreakerEvent where
  | tripEv (reason trigger_type : String)
  | resetEv
  | checkPassEv
  deriving DecidableEq

/-- One step of breaker history. -/
def applyEvent (st : CircuitBreakerState) : BreakerEvent → CircuitBreakerState
  | .tripEv r t => trip r t st
  | .resetEv => reset st
  | .checkPassEv => st

/-- Replay a breaker history (chronological order) from the clear state. -/
def runEvents (evs : List BreakerEvent) : CircuitBreakerState :=
  evs.foldl applyEvent cb_initial

/-- Whether an event settles the tripped flag (`trip` sets it, `reset` clears
it, a passing check leaves it alone). -/
def eventVerdict : BreakerEvent → Option Bool
  | .tripEv _ _ => some true
  | .resetEv => some false
  | .checkPassEv => none

/-- The verdict of the most recent trip/reset in a history, if any. -/
def lastVerdict : List BreakerEvent → Option Bool
  | [] => none
  | e :: es =>
    match lastVerdict es with
    | some b => some b
    | none => eventVerdict e

/-- Caller intent, immutable once submitted. -/
structure OrderRequest where
  user_id : String
  bot_id : String
  exchange : String
  symbol : String
  side : String
  amount : ℚ
  order_type : String
  price : Option ℚ
  idempotency_key : Option String
  expected_edge_bps : Option ℚ
  deriving DecidableEq

/-- Lifecycle states of a persisted submission record. -/
inductive OrderState where
  | pending
  | filled
  | rejected
  | expired
  | cancelled
  deriving DecidableEq

/-- Expected basis-point cost breakdown returned for downstream execution. -/
structure ExecutionSummary where
  fee_bps : ℚ
  spread_bps : ℚ
  slippage_bps : ℚ
  safety_margin_bps : ℚ
  total_cost_bps : ℚ
  deriving DecidableEq

/-- Persisted submission record, created only on a full gate pass. -/
structure PendingOrder where
  order_id : String
  idempotency_key : Option String
  request : OrderRequest
  state : OrderState
  execution_summary : ExecutionSummary
  gates_passed : List String
  deriving DecidableEq

/-- A ledger fill carrying the expected-vs-actual reconciliation numbers. -/
structure Fill where
  order_id : String
  filled_price : ℚ
  filled_qty : ℚ
  actual_fee : ℚ
  fee_currency : String
  slippage_bps : ℚ
  actual_fee_bps : ℚ
  deriving DecidableEq

/-- Mutable state owned by one pipeline instance: the pending-order store,
the per-`(exchange, user)` burst counters, and the append-only fill ledger. -/
structure PipelineState where
  pending_orders : List PendingOrder
  burst_counters : List ((String × String) × List ℚ)
  fills : List Fill
  deriving DecidableEq

/-- The burst counter stored for a key (empty when the key is fresh). -/
def lookup_counter (cs : List ((String × String) × List ℚ)) (k : String × String) :
    List ℚ :=
  match cs.find? (fun c => c.1 == k) with
  | some c => c.2
  | none => []

/-- Store a key's burst counter. -/
def set_counter (cs : List ((String × String) × List ℚ)) (k : String × String)
    (v : List ℚ) : List ((String × String) × List ℚ) :=
  (k, v) :: cs.filter (fun c => !(c.1 == k))

/-- Pipeline configuration (spec §6 configuration surface). -/
structure PipelineConfig where
  max_trades_per_bot_daily : ℕ
  max_trades_per_user_daily : ℕ
  burst_limit_orders : ℕ
  burst_limit_window_seconds : ℚ
  min_edge_bps : ℚ
  safety_margin_bps : ℚ
  slippage_buffer_bps : ℚ
  breaker : BreakerConfig
  deriving DecidableEq

/-- What the external ledger reports for this submission: daily trade counts,
the current fee/spread estimates, and the breaker risk metrics. -/
structure LedgerView where
  bot_daily_count : ℕ
  user_daily_count : ℕ
  fee_bps : ℚ
  spread_bps : ℚ
  breaker_inputs : BreakerInputs
  deriving DecidableEq

/-- Response of `submit_order`. -/
structure SubmitResult where
  success : Bool
  order_id : String
  gates_passed : List String
  execution_summary : Option ExecutionSummary
  reason : String
  deriving DecidableEq

/-- The fixed gate order recorded on a full pass. -/
def gates_all : List String :=
  ["idempotency", "fee_coverage", "trade_limiter", "circuit_breaker"]

/-- Look up a stored PendingOrder by idempotency key. -/
def find_by_key (orders : List PendingOrder) (k : String) : Option PendingOrder :=
  orders.find? (fun o => o.idempotency_key == some k)

/-- The result a stored PendingOrder originally produced: orders are persisted
only on a full pass, so the prior result was a success carrying the order's
id, gate list and execution summary. -/
def prior_result (o : PendingOrder) : SubmitResult :=
  ⟨true, o.order_id, o.gates_passed, some o.execution_summary, ""⟩

/-- Modelled from the spec: `OrderPipeline.submit_order`
(`services/order_pipeline.py` is absent from the sources; only its tests are
present). Gate A: an idempotency hit returns the stored order's prior result
verbatim with no further gate evaluation and no state change. Otherwise gates
B (fee coverage), C (trade limiter) and D (circuit breaker) run in fixed
order, short-circuiting on the first failure, and no PendingOrder is persisted
for a rejection; a full pass persists a PendingOrder with the four gate names
in order. `new_order_id` is the generated id, `now` the submission time. -/
def submit_order (cfg : PipelineConfig) (led : LedgerView) (now : ℚ)
    (new_order_id : String) (st : PipelineState) (req : OrderRequest) :
    SubmitResult × PipelineState :=
  match req.idempotency_key.bind (find_by_key st.pending_orders) with
  | some o => (prior_result o, st)
  | none =>
    let edge := req.expected_edge_bps.getD cfg.min_edge_bps
    let gb := gate_fee_coverage edge led.fee_bps led.spread_bps
      cfg.slippage_buffer_bps cfg.safety_margin_bps
    if gb.1.passed = false then
      (⟨false, "", ["idempotency"], none, gb.1.reason⟩, st)
    else
      let key := (req.exchange, req.user_id)
      let gc := gate_trade_limiter cfg.max_trades_per_bot_daily
        cfg.max_trades_per_user_daily cfg.burst_limit_orders
        cfg.burst_limit_window_seconds led.bot_daily_count led.user_daily_count
        (lookup_counter st.burst_counters key) now
      let st1 : PipelineState :=
        { st with burst_counters := set_counter st.burst_counters key gc.counter }
      if gc.passed = false then
        (⟨false, "", ["idempotency", "fee_coverage"], none, gc.reason⟩, st1)
      else
        let gd := check_status cfg.breaker led.breaker_inputs
        if gd.should_trip then
          (⟨false, "", ["idempotency", "fee_coverage", "trade_limiter"], none,
            gd.reason⟩, st1)
        else
          let summ : ExecutionSummary :=
            ⟨(gb.2).fee_bps, (gb.2).spread_bps, (gb.2).slippage_bps,
              (gb.2).safety_margin_bps, (gb.2).total_cost_bps⟩
          let o : PendingOrder :=
            ⟨new_order_id, req.idempotency_key, req, .pending, summ, gates_all⟩
          (⟨true, new_order_id, gates_all, some summ, ""⟩,
            { st1 with pending_orders := o :: st1.pending_orders })

/-- Response of `record_fill_execution`. -/
structure FillResult where
  success : Bool
  slippage_bps : ℚ
  actual_fee_bps : ℚ
  deriving DecidableEq

/-- Mark the matching order filled. -/
def mark_filled (orders : List PendingOrder) (oid : String) : List PendingOrder :=
  orders.map (fun o => if o.order_id == oid then { o with state := .filled } else o)

/-- Modelled from the spec: `OrderPipeline.record_fill_execution`. NotFound
(`none`) when no PendingOrder matches; otherwise computes
`slippage_bps = |filled_price − expected_price| / expected_price × 10000` and
`actual_fee_bps = actual_fee / (filled_price × filled_qty) × 10000`, appends a
Fill to the ledger and marks the order filled. The expected price is the
order's stored price. -/
def record_fill_execution (st : PipelineState) (oid : String)
    (filled_price filled_qty actual_fee : ℚ) (fee_currency : String) :
    Option (FillResult × PipelineState) :=
  match st.pending_orders.find? (fun o => o.order_id == oid) with
  | none => none
  | some o =>
    let expected_price := (o.request.price).getD filled_price
    let slippage_bps := |filled_price - expected_price| / expected_price * 10000
    let actual_fee_bps := actual_fee / (filled_price * filled_qty) * 10000
    let f : Fill :=
      ⟨oid, filled_price, filled_qty, actual_fee, fee_currency, slippage_bps,
        actual_fee_bps⟩
    some (⟨true, slippage_bps, actual_fee_bps⟩,
      ⟨mark_filled st.pending_orders oid, st.burst_counters, f :: st.fills⟩)

/-- Decimal-digit value of a character, over plain naturals. -/
def digit_val (c : Char) : Option ℕ :=
  if 48 ≤ c.toNat ∧ c.toNat ≤ 57 then some (c.toNat - 48) else none

/-- Parse a run of decimal digits, most significant first. -/
def parse_digits : List Char → ℕ → Option ℕ
  | [], acc => some acc
  | c :: cs, acc =>
    match digit_val c with
    | some d => parse_digits cs (acc * 10 + d)
    | none => none

/-- Parse a nonempty decimal numeral. -/
def parse_nat (s : String) : Option ℕ :=
  match s.data with
  | [] => none
  | cs => parse_digits cs 0

/-- Modelled from the spec and `test_limits_read_from_environment`: a numeric
limit is taken from the named environment variable when it parses, else the
default. -/
def read_env_limit (env : String → Option String) (varName : String)
    (dflt : ℕ) : ℕ :=
  match env varName with
  | some s => (parse_nat s).getD dflt
  | none => dflt

/-- The three rate limits an `OrderPipeline` constructed without an explicit
config carries. -/
structure EnvLimits where
  max_trades_per_bot_daily : ℕ
  max_trades_per_user_daily : ℕ
  burst_limit_orders : ℕ
  deriving DecidableEq

/-- Modelled from the spec: without an explicit config the pipeline reads
`MAX_TRADES_PER_BOT_DAILY`, `MAX_TRADES_PER_USER_DAILY` and
`BURST_LIMIT_ORDERS_PER_EXCHANGE` from the environment, with the test-fixture
defaults 50 / 500 / 10 as fallback. -/
def limits_from_env (env : String → Option String) : EnvLimits :=
  ⟨read_env_limit env "MAX_TRADES_PER_BOT_DAILY" 50,
    read_env_limit env "MAX_TRADES_PER_USER_DAILY" 500,
    read_env_limit env "BURST_LIMIT_ORDERS_PER_EXCHANGE" 10⟩

/-- How many stored orders carry idempotency key `k`. -/
def count_key (orders : List PendingOrder) (k : String) : ℕ :=
  (orders.filter (fun o => o.idempotency_key == some k)).length

/-- No idempotency key is carried by two stored orders. -/
def keys_unique (orders : List PendingOrder) : Prop :=
  ∀ k, count_key orders k ≤ 1

/-- C4: the fee-coverage gate passes iff `edge_bps ≥ total_cost_bps`; on
failure the reason contains "Insufficient edge" and the profit margin in the
details is negative; on pass the margin is nonnegative. -/
theorem fee_coverage_pass_iff (e f s sl sa : ℚ) :
    ((gate_fee_coverage e f s sl sa).1.passed = true ↔ f + s + sl + sa ≤ e)
    ∧ ((gate_fee_coverage e f s sl sa).1.passed = false →
        strContains (gate_fee_coverage e f s sl sa).1.reason "Insufficient edge"
        ∧ (gate_fee_coverage e f s sl sa).2.profit_margin_bps < 0)
    ∧ ((gate_fee_coverage e f s sl sa).1.passed = true →
        0 ≤ (gate_fee_coverage e f s sl sa).2.profit_margin_bps) := by
  by_cases h : f + s + sl + sa ≤ e
  · simp only [gate_fee_coverage, if_pos h]
    refine ⟨by simpa using h, by simp, fun _ => ?_⟩
    simpa using sub_nonneg.mpr h
  · simp only [gate_fee_coverage, if_neg h]
    refine ⟨by simpa using h, fun _ => ⟨⟨"", "", by decide⟩, ?_⟩, by simp⟩
    simpa using sub_neg.mpr (lt_of_not_le h)

/-- C4 witness: edge 10 bps against cost 30 bps fails with the "Insufficient
edge" reason and a negative margin. -/
theorem fee_coverage_pass_iff_w :
    strContains (gate_fee_coverage 10 30 0 0 0).1.reason "Insufficient edge"
    ∧ (gate_fee_coverage 10 30 0 0 0).2.profit_margin_bps < 0 :=
  (fee_coverage_pass_iff 10 30 0 0 0).2.1 (by norm_num [gate_fee_coverage])

/-- C9: for nonnegative components, `total_cost_bps` equals the exact sum of
fee, spread, slippage and safety margin (in particular it is within 0.01 of
that sum), and all four components plus the total are exposed in the gate
details. -/
theorem fee_coverage_total_is_sum (e f s sl sa : ℚ)
    (_hf : 0 ≤ f) (_hs : 0 ≤ s) (_hsl : 0 ≤ sl) (_hsa : 0 ≤ sa) :
    (gate_fee_coverage e f s sl sa).2.total_cost_bps = f + s + sl + sa
    ∧ |(gate_fee_coverage e f s sl sa).2.total_cost_bps - (f + s + sl + sa)| ≤ 1/100
    ∧ (gate_fee_coverage e f s sl sa).2.fee_bps = f
    ∧ (gate_fee_coverage e f s sl sa).2.spread_bps = s
    ∧ (gate_fee_coverage e f s sl sa).2.slippage_bps = sl
    ∧ (gate_fee_coverage e f s sl sa).2.safety_margin_bps = sa := by
  have hd : (gate_fee_coverage e f s sl sa).2 =
      ⟨f, s, sl, sa, f + s + sl + sa, e - (f + s + sl + sa), e⟩ := by
    by_cases h : f + s + sl + sa ≤ e <;> simp [gate_fee_coverage, h]
  rw [hd]
  norm_num

/-- C9 witness at the tested component values 10, 5, 10, 5 bps. -/
theorem fee_coverage_total_is_sum_w :
    (0:ℚ) ≤ 10 ∧ (gate_fee_coverage 50 10 5 10 5).2.total_cost_bps = 30 :=
  ⟨by norm_num,
    ((fee_coverage_total_is_sum 50 10 5 10 5 (by norm_num) (by norm_num)
      (by norm_num) (by norm_num)).1).trans (by norm_num)⟩

/-- C6: Gate C evaluates bot daily, user daily, burst in that order with the
first failure winning, and produces the exact reason formats
"Bot daily limit: {count}/{limit}", "User daily limit: {count}/{limit}" and
"Burst limit: {count}/{limit}". -/
theorem trade_limiter_first_failure (bl ul kl : ℕ) (w : ℚ) (bc uc : ℕ)
    (c : List ℚ) (now : ℚ) :
    (bl ≤ bc → gate_trade_limiter bl ul kl w bc uc c now =
      ⟨false, "Bot daily limit: " ++ toString bc ++ "/" ++ toString bl, c⟩)
    ∧ (bc < bl → ul ≤ uc → gate_trade_limiter bl ul kl w bc uc c now =
      ⟨false, "User daily limit: " ++ toString uc ++ "/" ++ toString ul, c⟩)
    ∧ (bc < bl → uc < ul → kl ≤ (prune_burst w now c).length →
      gate_trade_limiter bl ul kl w bc uc c now =
      ⟨false,
        "Burst limit: " ++ toString (prune_burst w now c).length ++ "/" ++ toString kl,
        prune_burst w now c⟩) := by
  refine ⟨fun h1 => ?_, fun h1 h2 => ?_, fun h1 h2 h3 => ?_⟩
  · simp [gate_trade_limiter, h1]
  · simp [gate_trade_limiter, Nat.not_le.mpr h1, h2]
  · simp [gate_trade_limiter, Nat.not_le.mpr h1, Nat.not_le.mpr h2, check_burst,
      Nat.not_lt.mpr h3]

/-- C6 witness: bot count 50 at limit 50 fails with "Bot daily limit: 50/50". -/
theorem trade_limiter_first_failure_w :
    50 ≤ 50
    ∧ gate_trade_limiter 50 500 10 10 50 0 [] 0 =
      ⟨false, "Bot daily limit: 50/50", []⟩ :=
  ⟨by decide,
    ((trade_limiter_first_failure 50 500 10 10 50 0 [] 0).1 (by decide)).trans
      (by decide)⟩

/-- C7 counterexample: with window 10 s, burst limit 10 and a counter holding
only the stale timestamps 70 and 75, the check at time 100 passes, yet the
post-check counter is empty: the current timestamp 100 was not appended, so
the claimed append-on-pass does not hold (while the claimed post-check
length 0 does). -/
theorem burst_append_cex :
    (check_burst 10 10 100 [70, 75]).1 = true
    ∧ (check_burst 10 10 100 [70, 75]).2.2 = []
    ∧ ¬ ((100 : ℚ) ∈ (check_burst 10 10 100 [70, 75]).2.2) := by
  have hnil : prune_burst 10 100 [70, 75] = [] := by
    norm_num [prune_burst, List.filter_cons]
  refine ⟨?_, ?_, ?_⟩ <;> simp [check_burst, hnil]

/-- C7 amended: on every burst evaluation the stale entries are pruned before
counting, on failing and passing checks alike; the check itself never appends
the current timestamp, leaving the post-check counter exactly the pruned,
window-bounded list; an all-stale counter therefore yields a passing check
with post-check counter length 0 (for a positive limit). -/
theorem burst_prune_invariant (limit : ℕ) (w now : ℚ) (c : List ℚ) :
    (check_burst limit w now c).2.2 = prune_burst w now c
    ∧ (∀ t ∈ (check_burst limit w now c).2.2, now - t ≤ w)
    ∧ (0 < limit → (∀ t ∈ c, w < now - t) →
        (check_burst limit w now c).1 = true
        ∧ (check_burst limit w now c).2.2 = []) := by
  have hmem : ∀ t ∈ prune_burst w now c, now - t ≤ w := by
    intro t ht
    simpa using List.of_mem_filter ht
  refine ⟨rfl, by simpa [check_burst] using hmem, fun hpos hstale => ?_⟩
  have hnil : prune_burst w now c = [] := by
    refine List.filter_eq_nil_iff.mpr fun t ht => ?_
    simpa using not_le.mpr (hstale t ht)
  exact ⟨by simp [check_burst, hnil, hpos], by simp [check_burst, hnil]⟩

/-- C7 amended witness: the all-stale counter [70, 75] at time 100 with
window 10 and limit 10 passes and leaves an empty counter. -/
theorem burst_prune_invariant_w :
    0 < 10
    ∧ (check_burst 10 10 100 [70, 75]).1 = true
    ∧ (check_burst 10 10 100 [70, 75]).2.2 = [] :=
  ⟨by decide,
    ((burst_prune_invariant 10 10 100 [70, 75]).2.2 (by decide)
      (by intro t ht; fin_cases ht <;> norm_num)).1,
    ((burst_prune_invariant 10 10 100 [70, 75]).2.2 (by decide)
      (by intro t ht; fin_cases ht <;> norm_num)).2⟩

/-- C5: with the default thresholds, `check_status` evaluates drawdown
(≥ 0.20), daily loss (≤ −0.10), consecutive losses (≥ 5) and error storm
(≥ 10/hour) in that order, returning `should_trip = true` with the first true
condition's reason — containing "drawdown", "daily loss", "consecutive" and
"error" respectively — and does not trip when every metric is below its
threshold. -/
theorem check_status_first_reason (inp : BreakerInputs) :
    ((1/5 : ℚ) ≤ inp.drawdown →
      check_status defaultBreakerConfig inp = ⟨true, "drawdown limit exceeded"⟩
      ∧ strContains (check_status defaultBreakerConfig inp).reason "drawdown")
    ∧ (inp.drawdown < 1/5 → inp.daily_pnl_percent ≤ -(1/10) →
      check_status defaultBreakerConfig inp = ⟨true, "daily loss limit exceeded"⟩
      ∧ strContains (check_status defaultBreakerConfig inp).reason "daily loss")
    ∧ (inp.drawdown < 1/5 → -(1/10) < inp.daily_pnl_percent →
        5 ≤ inp.consecutive_losses →
      check_status defaultBreakerConfig inp =
        ⟨true, "consecutive losses limit exceeded"⟩
      ∧ strContains (check_status defaultBreakerConfig inp).reason "consecutive")
    ∧ (inp.drawdown < 1/5 → -(1/10) < inp.daily_pnl_percent →
        inp.consecutive_losses < 5 → (10 : ℚ) ≤ inp.error_rate →
      check_status defaultBreakerConfig inp = ⟨true, "error rate limit exceeded"⟩
      ∧ strContains (check_status defaultBreakerConfig inp).reason "error")
    ∧ (inp.drawdown < 1/5 → -(1/10) < inp.daily_pnl_percent →
        inp.consecutive_losses < 5 → inp.error_rate < 10 →
      (check_status defaultBreakerConfig inp).should_trip = false) := by
  refine ⟨fun h1 => ?_, fun h1 h2 => ?_, fun h1 h2 h3 => ?_,
    fun h1 h2 h3 h4 => ?_, fun h1 h2 h3 h4 => ?_⟩
  · have hc : check_status defaultBreakerConfig inp =
        ⟨true, "drawdown limit exceeded"⟩ := by
      simp only [check_status, defaultBreakerConfig]
      rw [if_pos h1]
    exact ⟨hc, by rw [hc]; exact ⟨"", " limit exceeded", by decide⟩⟩
  · have hc : check_status defaultBreakerConfig inp =
        ⟨true, "daily loss limit exceeded"⟩ := by
      simp only [check_status, defaultBreakerConfig]
      rw [if_neg (not_le.mpr h1), if_pos h2]
    exact ⟨hc, by rw [hc]; exact ⟨"", " limit exceeded", by decide⟩⟩
  · have hc : check_status defaultBreakerConfig inp =
        ⟨true, "consecutive losses limit exceeded"⟩ := by
      simp only [check_status, defaultBreakerConfig]
      rw [if_neg (not_le.mpr h1), if_neg (not_le.mpr h2), if_pos h3]
    exact ⟨hc, by rw [hc]; exact ⟨"", " losses limit exceeded", by decide⟩⟩
  · have hc : check_status defaultBreakerConfig inp =
        ⟨true, "error rate limit exceeded"⟩ := by
      simp only [check_status, defaultBreakerConfig]
      rw [if_neg (not_le.mpr h1), if_neg (not_le.mpr h2),
        if_neg (Nat.not_le.mpr h3), if_pos h4]
    exact ⟨hc, by rw [hc]; exact ⟨"", " rate limit exceeded", by decide⟩⟩
  · have hc : check_status defaultBreakerConfig inp = ⟨false, ""⟩ := by
      simp only [check_status, defaultBreakerConfig]
      rw [if_neg (not_le.mpr h1), if_neg (not_le.mpr h2),
        if_neg (Nat.not_le.mpr h3), if_neg (not_le.mpr h4)]
    rw [hc]

/-- C5 witness: drawdown 0.22 trips with the drawdown reason. -/
theorem check_status_first_reason_w :
    (1/5 : ℚ) ≤ 22/100
    ∧ check_status defaultBreakerConfig ⟨22/100, 0, 0, 0⟩ =
      ⟨true, "drawdown limit exceeded"⟩ :=
  ⟨by norm_num,
    ((check_status_first_reason ⟨22/100, 0, 0, 0⟩).1 (by norm_num)).1⟩

/-- Replaying a history from any starting state: the tripped flag afterwards
is the verdict of the most recent trip/reset, or the starting flag when the
history holds neither. -/
theorem foldl_tripped (evs : List BreakerEvent) (st : CircuitBreakerState) :
    (evs.foldl applyEvent st).tripped = (lastVerdict evs).getD st.tripped := by
  induction evs generalizing st with
  | nil => rfl
  | cons e es ih =>
    rw [List.foldl_cons, ih]
    cases hv : lastVerdict es with
    | some b => simp [lastVerdict, hv]
    | none =>
      cases e <;> simp [lastVerdict, hv, applyEvent, trip, reset, eventVerdict]

/-- Splitting a history: the most recent verdict of `xs ++ ys` is that of
`ys` when it has one, else that of `xs`. -/
theorem lastVerdict_append (xs ys : List BreakerEvent) :
    lastVerdict (xs ++ ys) =
      match lastVerdict ys with
      | some b => some b
      | none => lastVerdict xs := by
  induction xs with
  | nil =>
    rw [List.nil_append]
    cases hys : lastVerdict ys <;> rfl
  | cons x xs ih =>
    rw [List.cons_append]
    show (match lastVerdict (xs ++ ys) with
      | some b => some b
      | none => eventVerdict x) = _
    rw [ih]
    cases hys : lastVerdict ys with
    | some b => rfl
    | none =>
      cases hxs : lastVerdict xs <;> simp [lastVerdict, hxs]

/-- Histories made only of passing checks settle nothing. -/
theorem lastVerdict_checks (cs : List BreakerEvent)
    (h : ∀ c ∈ cs, c = BreakerEvent.checkPassEv) : lastVerdict cs = none := by
  induction cs with
  | nil => rfl
  | cons x xs ih =>
    have hx := h x (by simp)
    show (match lastVerdict xs with
      | some b => some b
      | none => eventVerdict x) = none
    rw [ih fun c hc => h c (by simp [hc]), hx]
    rfl

/-- C8: the circuit breaker is a latch. After `trip` the status reads
tripped; later passing checks never clear it, so it stays tripped until an
explicit `reset`; and in general a key is tripped iff the most recent trip in
its history postdates the most recent reset/clear. -/
theorem breaker_latch (evs checks : List BreakerEvent) (r t : String) :
    get_status (runEvents (evs ++ [BreakerEvent.tripEv r t])) = true
    ∧ ((∀ c ∈ checks, c = BreakerEvent.checkPassEv) →
        get_status (runEvents (evs ++ BreakerEvent.tripEv r t :: checks)) = true)
    ∧ (get_status (runEvents evs) = true ↔ lastVerdict evs = some true) := by
  have hrun : ∀ xs : List BreakerEvent,
      get_status (runEvents xs) = (lastVerdict xs).getD false :=
    fun xs => foldl_tripped xs cb_initial
  refine ⟨?_, fun hck => ?_, ?_⟩
  · rw [hrun, lastVerdict_append]
    rfl
  · rw [hrun]
    have : BreakerEvent.tripEv r t :: checks = [BreakerEvent.tripEv r t] ++ checks :=
      rfl
    rw [this, ← List.append_assoc, lastVerdict_append, lastVerdict_checks checks hck,
      lastVerdict_append]
    rfl
  · rw [hrun]
    cases hv : lastVerdict evs with
    | none => simp
    | some b => cases b <;> simp

/-- C8 witness: tripping bot_456 manually and then running a passing check
leaves the status tripped. -/
theorem breaker_latch_w :
    (∀ c ∈ [BreakerEvent.checkPassEv], c = BreakerEvent.checkPassEv)
    ∧ get_status (runEvents
        ([] ++ BreakerEvent.tripEv "Test trip" "manual" :: [BreakerEvent.checkPassEv]))
      = true :=
  ⟨by decide,
    (breaker_latch [] [BreakerEvent.checkPassEv] "Test trip" "manual").2.1
      (by decide)⟩

/-- Counting a key through a cons. -/
theorem count_key_cons (o : PendingOrder) (orders : List PendingOrder) (k : String) :
    count_key (o :: orders) k =
      (if o.idempotency_key == some k then 1 else 0) + count_key orders k := by
  by_cases h : o.idempotency_key == some k <;>
    simp [count_key, List.filter_cons, h, Nat.add_comm]

/-- A key that fails lookup is stored nowhere. -/
theorem count_key_of_find_none (orders : List PendingOrder) (k : String)
    (h : find_by_key orders k = none) : count_key orders k = 0 := by
  unfold find_by_key at h
  unfold count_key
  rw [List.length_eq_zero]
  exact List.filter_eq_nil_iff.mpr fun o ho => (List.find?_eq_none.mp h) o ho

/-- Where a submission can leave the order store: untouched, or (only when
the key had no idempotency hit) with exactly the one new pending order in
front. Fills are never written by a submission. -/
theorem submit_order_pending_cases (cfg : PipelineConfig) (led : LedgerView)
    (now : ℚ) (nid : String) (st : PipelineState) (req : OrderRequest) :
    ((submit_order cfg led now nid st req).2.pending_orders = st.pending_orders
      ∧ (submit_order cfg led now nid st req).2.fills = st.fills)
    ∨ (req.idempotency_key.bind (find_by_key st.pending_orders) = none
      ∧ (∃ summ, (submit_order cfg led now nid st req).2.pending_orders =
          ⟨nid, req.idempotency_key, req, OrderState.pending, summ, gates_all⟩
            :: st.pending_orders)
      ∧ (submit_order cfg led now nid st req).2.fills = st.fills) := by
  unfold submit_order
  cases hbind : req.idempotency_key.bind (find_by_key st.pending_orders) with
  | some o => exact Or.inl ⟨rfl, rfl⟩
  | none =>
    simp only
    split
    · exact Or.inl ⟨rfl, rfl⟩
    · split
      · exact Or.inl ⟨rfl, rfl⟩
      · split
        · exact Or.inl ⟨rfl, rfl⟩
        · exact Or.inr ⟨trivial, ⟨_, rfl⟩, rfl⟩

/-- C1: `submit_order` is idempotent in the idempotency key — a request whose
key matches a stored PendingOrder gets that order's prior result verbatim
(identical order id and identical gate outcome: the stored success, gate list
and summary) with the pipeline state untouched, so no gate is re-evaluated
and nothing new is persisted; moreover no submission ever writes a Fill, and
key-uniqueness of the store is preserved by every submission, so only one
PendingOrder/Fill pair is ever created per key. -/
theorem submit_order_idempotent (cfg : PipelineConfig) (led : LedgerView)
    (now : ℚ) (nid : String) (st : PipelineState) (req : OrderRequest) :
    (∀ k o, req.idempotency_key = some k →
      find_by_key st.pending_orders k = some o →
      submit_order cfg led now nid st req = (prior_result o, st))
    ∧ (submit_order cfg led now nid st req).2.fills = st.fills
    ∧ (keys_unique st.pending_orders →
        keys_unique (submit_order cfg led now nid st req).2.pending_orders) := by
  refine ⟨fun k o hk hfind => ?_, ?_, fun hu => ?_⟩
  · unfold submit_order
    rw [hk]
    simp [Option.bind, hfind]
  · rcases submit_order_pending_cases cfg led now nid st req with ⟨_, hf⟩ | ⟨_, _, hf⟩
      <;> exact hf
  · rcases submit_order_pending_cases cfg led now nid st req with
      ⟨hp, _⟩ | ⟨hbind, ⟨summ, hp⟩, _⟩
    · rw [hp]; exact hu
    · intro k
      rw [hp, count_key_cons]
      by_cases hok : req.idempotency_key == some k
      · have hkey : req.idempotency_key = some k := by simpa using hok
        have hfind : find_by_key st.pending_orders k = none := by
          rw [hkey] at hbind
          simpa using hbind
        simp [hok, count_key_of_find_none st.pending_orders k hfind]
      · simpa [hok] using hu k

/-- A request and a matching stored order sharing key "test-key-001". -/
def sample_request : OrderRequest :=
  ⟨"user_123", "bot_456", "binance", "BTC/USDT", "buy", 1, "market",
    none, some "test-key-001", none⟩

/-- The execution summary of the stored sample order. -/
def sample_summary : ExecutionSummary := ⟨10, 5, 10, 5, 30⟩

/-- A stored pending order for key "test-key-001". -/
def sample_order : PendingOrder :=
  ⟨"order_1", some "test-key-001", sample_request, .pending, sample_summary,
    gates_all⟩

/-- A pipeline state already holding the sample order. -/
def sample_state : PipelineState := ⟨[sample_order], [], []⟩

/-- The test-fixture configuration: limits 50/500/10, window 10 s,
min edge 10 bps, safety 5 bps, slippage buffer 10 bps. -/
def sample_config : PipelineConfig := ⟨50, 500, 10, 10, 10, 5, 10, defaultBreakerConfig⟩

/-- A healthy ledger view: zero counts, fee 10 bps, spread 5 bps, drawdown
5 %, flat PnL, no losses, no errors. -/
def sample_ledger : LedgerView := ⟨0, 0, 10, 5, ⟨1/20, 0, 0, 0⟩⟩

/-- C1 witness: resubmitting key "test-key-001" against a store holding it
returns the stored order's prior result and leaves the state untouched. -/
theorem submit_order_idempotent_w :
    sample_request.idempotency_key = some "test-key-001"
    ∧ submit_order sample_config sample_ledger 0 "order_2" sample_state
        sample_request = (prior_result sample_order, sample_state) :=
  ⟨rfl,
    (submit_order_idempotent sample_config sample_ledger 0 "order_2" sample_state
      sample_request).1 "test-key-001" sample_order rfl rfl⟩

/-- C2: an order with no idempotency hit, sufficient edge, counts under both
daily limits, burst under its limit and a clear circuit breaker passes all
four gates: `submit_order` returns success with the execution summary and a
`gates_passed` list of exactly 4 entries in the fixed order [idempotency,
fee_coverage, trade_limiter, circuit_breaker], and persists the PendingOrder. -/
theorem submit_order_full_pass (cfg : PipelineConfig) (led : LedgerView)
    (now : ℚ) (nid : String) (st : PipelineState) (req : OrderRequest)
    (hA : req.idempotency_key.bind (find_by_key st.pending_orders) = none)
    (hB : led.fee_bps + led.spread_bps + cfg.slippage_buffer_bps
        + cfg.safety_margin_bps ≤ req.expected_edge_bps.getD cfg.min_edge_bps)
    (hCbot : led.bot_daily_count < cfg.max_trades_per_bot_daily)
    (hCuser : led.user_daily_count < cfg.max_trades_per_user_daily)
    (hCburst : (prune_burst cfg.burst_limit_window_seconds now
        (lookup_counter st.burst_counters (req.exchange, req.user_id))).length
        < cfg.burst_limit_orders)
    (hD : (check_status cfg.breaker led.breaker_inputs).should_trip = false) :
    (submit_order cfg led now nid st req).1 =
      ⟨true, nid, gates_all,
        some ⟨led.fee_bps, led.spread_bps, cfg.slippage_buffer_bps,
          cfg.safety_margin_bps,
          led.fee_bps + led.spread_bps + cfg.slippage_buffer_bps
            + cfg.safety_margin_bps⟩, ""⟩
    ∧ gates_all.length = 4
    ∧ (submit_order cfg led now nid st req).2.pending_orders =
        ⟨nid, req.idempotency_key, req, OrderState.pending,
          ⟨led.fee_bps, led.spread_bps, cfg.slippage_buffer_bps,
            cfg.safety_margin_bps,
            led.fee_bps + led.spread_bps + cfg.slippage_buffer_bps
              + cfg.safety_margin_bps⟩, gates_all⟩ :: st.pending_orders := by
  have hgb : gate_fee_coverage (req.expected_edge_bps.getD cfg.min_edge_bps)
      led.fee_bps led.spread_bps cfg.slippage_buffer_bps cfg.safety_margin_bps =
      (⟨true, ""⟩,
        ⟨led.fee_bps, led.spread_bps, cfg.slippage_buffer_bps,
          cfg.safety_margin_bps,
          led.fee_bps + led.spread_bps + cfg.slippage_buffer_bps
            + cfg.safety_margin_bps,
          req.expected_edge_bps.getD cfg.min_edge_bps
            - (led.fee_bps + led.spread_bps + cfg.slippage_buffer_bps
              + cfg.safety_margin_bps),
          req.expected_edge_bps.getD cfg.min_edge_bps⟩) := by
    simp only [gate_fee_coverage]
    rw [if_pos hB]
  have hgc : gate_trade_limiter cfg.max_trades_per_bot_daily
      cfg.max_trades_per_user_daily cfg.burst_limit_orders
      cfg.burst_limit_window_seconds led.bot_daily_count led.user_daily_count
      (lookup_counter st.burst_counters (req.exchange, req.user_id)) now =
      ⟨true, "", prune_burst cfg.burst_limit_window_seconds now
        (lookup_counter st.burst_counters (req.exchange, req.user_id))⟩ := by
    simp only [gate_trade_limiter, check_burst]
    rw [if_neg (Nat.not_le.mpr hCbot), if_neg (Nat.not_le.mpr hCuser),
      if_pos (by simpa using hCburst)]
  unfold submit_order
  rw [hA]
  simp only [hgb, hgc, hD]
  refine ⟨?_, rfl, ?_⟩ <;> simp

/-- A fresh pipeline state. -/
def empty_state : PipelineState := ⟨[], [], []⟩

/-- A keyless market order carrying an explicit 50 bps expected edge. -/
def sample_request2 : OrderRequest :=
  ⟨"user_123", "bot_456", "binance", "BTC/USDT", "buy", 1, "market",
    none, none, some 50⟩

/-- C2 witness: the 50 bps edge order against the healthy ledger passes all
four gates. -/
theorem submit_order_full_pass_w :
    (check_status sample_config.breaker sample_ledger.breaker_inputs).should_trip
      = false
    ∧ (submit_order sample_config sample_ledger 0 "order_1" empty_state
        sample_request2).1.success = true := by
  constructor
  · norm_num [check_status, sample_config, sample_ledger, defaultBreakerConfig]
  · have h := (submit_order_full_pass sample_config sample_ledger 0 "order_1"
      empty_state sample_request2 rfl
      (by norm_num [sample_config, sample_ledger, sample_request2])
      (by decide) (by decide) (by decide)
      (by norm_num [check_status, sample_config, sample_ledger,
        defaultBreakerConfig])).1
    rw [h]

/-- C3: `record_fill_execution` computes the actual slippage and fee in basis
points by the spec formulas — exactly over ℚ, hence within 0.01 of the exact
values. -/
theorem record_fill_formulas (st : PipelineState) (oid : String)
    (fp q fee : ℚ) (cur : String) (o : PendingOrder) (p : ℚ)
    (hfind : st.pending_orders.find? (fun o => o.order_id == oid) = some o)
    (hp : o.request.price = some p) (_hppos : 0 < p) (_hfp : 0 < fp)
    (_hq : 0 < q) :
    ∃ res st2, record_fill_execution st oid fp q fee cur = some (res, st2)
      ∧ res.success = true
      ∧ res.slippage_bps = |fp - p| / p * 10000
      ∧ res.actual_fee_bps = fee / (fp * q) * 10000
      ∧ |res.slippage_bps - |fp - p| / p * 10000| ≤ 1/100
      ∧ |res.actual_fee_bps - fee / (fp * q) * 10000| ≤ 1/100 := by
  unfold record_fill_execution
  rw [hfind]
  simp only [hp, Option.getD_some]
  exact ⟨_, _, rfl, rfl, rfl, rfl, by rw [sub_self, abs_zero]; norm_num,
    by rw [sub_self, abs_zero]; norm_num⟩

/-- The pending order "order_123" expecting price 50000. -/
def fill_request : OrderRequest :=
  ⟨"user_123", "bot_456", "binance", "BTC/USDT", "buy", 1, "market",
    some 50000, none, none⟩

/-- The stored order the fills below reconcile against. -/
def fill_order : PendingOrder :=
  ⟨"order_123", none, fill_request, .pending, sample_summary, gates_all⟩

/-- A pipeline state holding the order "order_123". -/
def fill_state : PipelineState := ⟨[fill_order], [], []⟩

/-- C3 witness: filling at 50100 against expected 50000 gives slippage
20 bps, and a 5-unit fee on 0.01 quantity at price 50000 gives a fee of
100 bps. -/
theorem record_fill_formulas_w :
    (0 : ℚ) < 50000
    ∧ (∃ res st2, record_fill_execution fill_state "order_123" 50100 1 (1/2)
        "USDT" = some (res, st2) ∧ res.slippage_bps = 20)
    ∧ (∃ res st2, record_fill_execution fill_state "order_123" 50000 (1/100) 5
        "USDT" = some (res, st2) ∧ res.actual_fee_bps = 100) := by
  refine ⟨by norm_num, ?_, ?_⟩
  · obtain ⟨res, st2, h1, _, h2, _, _, _⟩ :=
      record_fill_formulas fill_state "order_123" 50100 1 (1/2) "USDT"
        fill_order 50000 rfl rfl (by norm_num) (by norm_num) (by norm_num)
    exact ⟨res, st2, h1, by rw [h2]; norm_num⟩
  · obtain ⟨res, st2, h1, _, _, h2, _, _⟩ :=
      record_fill_formulas fill_state "order_123" 50000 (1/100) 5 "USDT"
        fill_order 50000 rfl rfl (by norm_num) (by norm_num) (by norm_num)
    exact ⟨res, st2, h1, by rw [h2]; norm_num⟩

/-- C10: a pipeline constructed without an explicit config reads its numeric
limits from the environment — MAX_TRADES_PER_BOT_DAILY=100,
MAX_TRADES_PER_USER_DAILY=1000 and BURST_LIMIT_ORDERS_PER_EXCHANGE=20 yield
limits 100, 1000 and 20. -/
theorem limits_from_env_reads (env : String → Option String)
    (h1 : env "MAX_TRADES_PER_BOT_DAILY" = some "100")
    (h2 : env "MAX_TRADES_PER_USER_DAILY" = some "1000")
    (h3 : env "BURST_LIMIT_ORDERS_PER_EXCHANGE" = some "20") :
    limits_from_env env = ⟨100, 1000, 20⟩ := by
  unfold limits_from_env read_env_limit
  rw [h1, h2, h3]
  decide

/-- The environment of `test_limits_read_from_environment`. -/
def sample_env : String → Option String := fun n =>
  if n = "MAX_TRADES_PER_BOT_DAILY" then some "100"
  else if n = "MAX_TRADES_PER_USER_DAILY" then some "1000"
  else if n = "BURST_LIMIT_ORDERS_PER_EXCHANGE" then some "20"
  else none

/-- C10 witness at the concrete environment. -/
theorem limits_from_env_reads_w :
    sample_env "MAX_TRADES_PER_BOT_DAILY" = some "100"
    ∧ limits_from_env sample_env = ⟨100, 1000, 20⟩ :=
  ⟨rfl, limits_from_env_reads sample_env rfl rfl rfl⟩

end Amarktai
